import Mathlib

/-!
Verification development for a thin JavaScript client around a cryptocurrency
market-data REST API (src/index.js).  The client assembles a version-prefixed
path plus query string from per-endpoint parameters, optionally injects an
authentication key, issues a GET request, and normalizes the HTTP response
into a uniform envelope.  JavaScript values appearing in parameter mappings
are shallowly embedded as the inductive type `JsVal`; objects are embedded as
insertion-ordered association lists, matching JS property-insertion order.
-/

/-- Shallow embedding of the JavaScript values the client manipulates.
Numbers are exact scaled decimals: `num m e` denotes `m * 10 ^ e`; the
library itself only ever builds whole numbers (`e = 0`). -/
inductive JsVal where
  | null
  | undefined
  | bool (b : Bool)
  | num (m : Int) (e : Int)
  | str (s : String)
  | arr (elems : List JsVal)
  | obj (fields : List (String × JsVal))

/-- Property read on a JS object embedded as an ordered association list:
first binding wins (JS objects cannot hold duplicate keys). -/
def getField : List (String × JsVal) → String → Option JsVal
  | [], _ => none
  | (k1, v) :: rest, k => if k1 = k then some v else getField rest k

/-- Property assignment on a JS object: overwrite in place if the key is
present, otherwise append at the end (JS property-insertion order). -/
def setField : List (String × JsVal) → String → JsVal → List (String × JsVal)
  | [], k, v => [(k, v)]
  | (k1, v1) :: rest, k, v =>
    if k1 = k then (k, v) :: rest else (k1, v1) :: setField rest k v

/-- Property read producing `undefined` for an absent key, as `params[name]`
does in JS. -/
def getF (fields : List (String × JsVal)) (k : String) : JsVal :=
  (getField fields k).getD JsVal.undefined

/-- Decimal rendering of the embedded scaled decimals.  The client only ever
renders whole numbers (`e = 0`), where this agrees with JS `String(n)`;
numbers with `e` different from 0 arise only from parsed response bodies,
which the client never serializes back. -/
def renderNum (m e : Int) : String :=
  if e = 0 then toString m else toString m ++ "e" ++ toString e

mutual
/-- JS `String(v)` conversion, used by template-literal path interpolation. -/
def jsStringOf : JsVal → String
  | .null => "null"
  | .undefined => "undefined"
  | .bool b => cond b "true" "false"
  | .num m e => renderNum m e
  | .str s => s
  | .arr l => jsArrJoinStr l
  | .obj _ => "[object Object]"

/-- JS `Array.prototype.join(",")`: elements converted with `String(v)`
except `null`/`undefined`, which become empty strings. -/
def jsArrJoinStr : List JsVal → String
  | [] => ""
  | [v] => jsElemStr v
  | v :: w :: rest => jsElemStr v ++ "," ++ jsArrJoinStr (w :: rest)

/-- Element conversion inside `Array.prototype.join`. -/
def jsElemStr : JsVal → String
  | .null => ""
  | .undefined => ""
  | .bool b => cond b "true" "false"
  | .num m e => renderNum m e
  | .str s => s
  | .arr l => jsArrJoinStr l
  | .obj _ => "[object Object]"
end

/-- Modelled from the spec: the repository ships only the type declarations
of `helpers/utilities.js` (utilities.d.ts); the implementation file is not
under src/.  Spec section 4.1 describes the helpers as pure type predicates.
`isString` holds exactly on string values. -/
def isString : JsVal → Bool
  | .str _ => true
  | _ => false

/-- ASCII whitespace removed by string trimming. -/
def wsTrimChar (c : Char) : Bool :=
  c == ' ' || c == '\t' || c == '\n' || c == '\r' || c.toNat == 11 || c.toNat == 12

/-- Trim leading and trailing whitespace, over the character list of the
embedded string. -/
def strTrim (s : String) : String :=
  String.mk (((s.toList.dropWhile wsTrimChar).reverse.dropWhile wsTrimChar).reverse)

/-- Modelled from the spec: `isStringEmpty` returns true for null, undefined,
and zero-length trimmed strings (spec section 4.1). -/
def isStringEmpty : JsVal → Bool
  | .null => true
  | .undefined => true
  | .str s => strTrim s == ""
  | _ => false

/-- Modelled from the spec: object (mapping) type predicate of section 4.1. -/
def isObject : JsVal → Bool
  | .obj _ => true
  | _ => false

/-- Modelled from the spec: array type predicate of section 4.1. -/
def isArray : JsVal → Bool
  | .arr _ => true
  | _ => false

/-- Modelled from the spec: number type predicate of section 4.1. -/
def isNumber : JsVal → Bool
  | .num _ _ => true
  | _ => false

/-- A diagnostic emitted by `Utils._WARN_(title, detail)`: modelled from the
spec, which describes a warning emitter that logs and lets execution
continue (non-fatal). -/
structure Warning where
  title : String
  detail : String
deriving DecidableEq

/- ---------------------------------------------------------------------- -/
/- Constants from the bottom of src/index.js.                              -/
/- ---------------------------------------------------------------------- -/

def HOST : String := "api.coingecko.com"

def PRO_HOST : String := "pro-api.coingecko.com"

def API_VERSION : String := "3"

def REQUESTS_PER_SECOND : Nat := 10

def TIMEOUT : Nat := 30000

/- ---------------------------------------------------------------------- -/
/- Node querystring.stringify, as consumed by _buildRequestOptions.        -/
/- ---------------------------------------------------------------------- -/

/-- Characters left unescaped by `querystring.escape` (the
`encodeURIComponent` set): alphanumerics and `- . _ ~ ! * ( )` plus the
apostrophe (codepoint 39). -/
def qsUnescaped (c : Char) : Bool :=
  let n := c.toNat
  (48 ≤ n && n ≤ 57) || (65 ≤ n && n ≤ 90) || (97 ≤ n && n ≤ 122) ||
    n == 45 || n == 46 || n == 95 || n == 126 || n == 33 || n == 42 ||
    n == 39 || n == 40 || n == 41

/-- Uppercase hexadecimal digit. -/
def hexDigitChar (n : Nat) : Char :=
  if n < 10 then Char.ofNat (48 + n) else Char.ofNat (55 + n)

/-- UTF-8 bytes of a scalar value. -/
def utf8Bytes (n : Nat) : List Nat :=
  if n < 128 then [n]
  else if n < 2048 then [192 + n / 64, 128 + n % 64]
  else if n < 65536 then [224 + n / 4096, 128 + n / 64 % 64, 128 + n % 64]
  else [240 + n / 262144, 128 + n / 4096 % 64, 128 + n / 64 % 64, 128 + n % 64]

/-- Percent-encoding of one byte. -/
def pctByte (b : Nat) : String :=
  "%" ++ String.singleton (hexDigitChar (b / 16)) ++ String.singleton (hexDigitChar (b % 16))

/-- `querystring.escape` on one character. -/
def qsEscapeChar (c : Char) : String :=
  if qsUnescaped c then String.singleton c
  else String.join ((utf8Bytes c.toNat).map pctByte)

/-- `querystring.escape`: percent-encoding per `encodeURIComponent`. -/
def qsEscape (s : String) : String :=
  String.join (s.toList.map qsEscapeChar)

/-- Node `stringifyPrimitive`: strings pass through, numbers and booleans are
rendered, everything else becomes the empty string. -/
def stringifyPrimitive : JsVal → String
  | .str s => s
  | .bool b => cond b "true" "false"
  | .num m e => renderNum m e
  | _ => ""

/-- The raw name/value pairs `querystring.stringify` serializes: one pair per
scalar field, one pair per element of an array-valued field. -/
def qsRawPairs : List (String × JsVal) → List (String × String)
  | [] => []
  | (k, .arr elems) :: rest => elems.map (fun v => (k, stringifyPrimitive v)) ++ qsRawPairs rest
  | (k, v) :: rest => (k, stringifyPrimitive v) :: qsRawPairs rest

/-- Join with ampersands, as `Array.prototype.join("&")` does on the encoded
pairs. -/
def joinAmp : List String → String
  | [] => ""
  | [x] => x
  | x :: y :: rest => x ++ "&" ++ joinAmp (y :: rest)

/-- Node `querystring.stringify`: escape each name and value and join the
`name=value` components with ampersands. -/
def qsStringify (fields : List (String × JsVal)) : String :=
  joinAmp ((qsRawPairs fields).map (fun kv => qsEscape kv.1 ++ "=" ++ qsEscape kv.2))

/-- `String.prototype.startsWith`, over the character lists of the embedded
strings. -/
def strStartsWith (s pre : String) : Bool :=
  List.isPrefixOf pre.toList s.toList

/- ---------------------------------------------------------------------- -/
/- The client: constructor, key/host resolution, request building.         -/
/- ---------------------------------------------------------------------- -/

/-- The client instance state: `this._apiKey`, set once by the constructor. -/
structure Client where
  apiKey : JsVal

/-- `constructor(apiKey=null)`: the argument is either absent (`none`) or an
explicit value; the JS default parameter replaces both a missing argument and
an explicitly-passed `undefined` with `null`. -/
def construct (arg : Option JsVal) : Client :=
  match arg with
  | none => { apiKey := JsVal.null }
  | some JsVal.undefined => { apiKey := JsVal.null }
  | some v => { apiKey := v }

/-- A client built with no constructor argument (`new CoinGecko()`). -/
def client0 : Client := construct none

/-- `_shouldCallPro`: `this._apiKey !== null`. -/
def _shouldCallPro (c : Client) : Bool :=
  match c.apiKey with
  | .null => false
  | _ => true

/-- `_insertApiKeyIntoParams`: when `params` is an object and a key is
configured, assign `params["x_cg_pro_api_key"] = this._apiKey`; otherwise
return `params` unchanged. -/
def _insertApiKeyIntoParams (c : Client) (params : JsVal) : JsVal :=
  match params with
  | .obj fields =>
    if _shouldCallPro c then .obj (setField fields "x_cg_pro_api_key" c.apiKey)
    else .obj fields
  | p => p

/-- `_resolveHost`: pro host when a key is configured, public host otherwise. -/
def _resolveHost (c : Client) : String :=
  if _shouldCallPro c then PRO_HOST else HOST

/-- The transient options handed to `https.request`. -/
structure RequestOptions where
  path : String
  method : String
  host : String
  port : Nat
  timeout : Nat

/-- `_buildRequestOptions(path, params)`: inject the key, stringify object
params (non-objects become `undefined`), prefix the versioned API segment, and
append `?query` exactly when the stringified params are not `undefined`.
Note the JS comparison is `params == undefined` AFTER stringification, so an
empty object stringifies to the empty string and still gets a `?`. -/
def _buildRequestOptions (c : Client) (path : String) (params : JsVal) : RequestOptions :=
  match _insertApiKeyIntoParams c params with
  | .obj fields =>
    { path := "/api/v" ++ API_VERSION ++ path ++ "?" ++ qsStringify fields
      method := "GET", host := _resolveHost c, port := 443, timeout := TIMEOUT }
  | _ =>
    { path := "/api/v" ++ API_VERSION ++ path
      method := "GET", host := _resolveHost c, port := 443, timeout := TIMEOUT }

/- ---------------------------------------------------------------------- -/
/- Strict JSON parsing, embedding the JSON.parse call in _request.         -/
/- ---------------------------------------------------------------------- -/

/-- JSON insignificant whitespace. -/
def jsonWsChar (c : Char) : Bool :=
  c == ' ' || c == '\t' || c == '\n' || c == '\r'

/-- Drop leading JSON whitespace. -/
def skipJsonWs : List Char → List Char
  | [] => []
  | c :: rest => if jsonWsChar c then skipJsonWs rest else c :: rest

/-- ASCII decimal digit test. -/
def isJsonDigit (c : Char) : Bool :=
  48 ≤ c.toNat && c.toNat ≤ 57

/-- Longest leading run of decimal digits, plus the remainder. -/
def takeDigits : List Char → List Char × List Char
  | [] => ([], [])
  | c :: rest =>
    if isJsonDigit c then
      let p := takeDigits rest
      (c :: p.1, p.2)
    else ([], c :: rest)

/-- Value of a digit run. -/
def digitsToNat (ds : List Char) : Nat :=
  ds.foldl (fun a c => a * 10 + (c.toNat - 48)) 0

/-- Optional exponent part of a JSON number: yields the signed exponent (0
when absent) and the remainder; fails on a dangling exponent marker. -/
def parseExpPart (s : List Char) : Option (Int × List Char) :=
  match s with
  | c :: rest =>
    if c == 'e' || c == 'E' then
      let p : Int × List Char :=
        match rest with
        | '+' :: r => (1, r)
        | '-' :: r => (-1, r)
        | r => (1, r)
      match takeDigits p.2 with
      | ([], _) => none
      | (ds, r2) => some (p.1 * (digitsToNat ds : Int), r2)
    else some (0, s)
  | [] => some (0, s)

/-- Optional fraction part of a JSON number: yields the fraction digits value,
their count, and the remainder; fails on a dangling decimal point. -/
def parseFracPart (s : List Char) : Option (Nat × Nat × List Char) :=
  match s with
  | '.' :: rest =>
    match takeDigits rest with
    | ([], _) => none
    | (ds, r) => some (digitsToNat ds, ds.length, r)
  | _ => some (0, 0, s)

/-- JSON number grammar: optional minus, integer part without leading zeros,
optional fraction, optional exponent; result is an exact scaled decimal. -/
def parseJsonNumber (s : List Char) : Option (JsVal × List Char) :=
  let p : Bool × List Char :=
    match s with
    | '-' :: r => (true, r)
    | _ => (false, s)
  let ipOpt : Option (Nat × List Char) :=
    match p.2 with
    | '0' :: r => some (0, r)
    | c :: r =>
      if isJsonDigit c && c != '0' then
        let q := takeDigits r
        some (digitsToNat (c :: q.1), q.2)
      else none
    | [] => none
  match ipOpt with
  | none => none
  | some (ip, r1) =>
    match parseFracPart r1 with
    | none => none
    | some (fv, flen, r2) =>
      match parseExpPart r2 with
      | none => none
      | some (e, r3) =>
        let mant : Nat := ip * 10 ^ flen + fv
        let m : Int := if p.1 then -(mant : Int) else (mant : Int)
        some (.num m (e - flen), r3)

/-- Hexadecimal digit value. -/
def hexVal (c : Char) : Option Nat :=
  let n := c.toNat
  if 48 ≤ n && n ≤ 57 then some (n - 48)
  else if 65 ≤ n && n ≤ 70 then some (n - 55)
  else if 97 ≤ n && n ≤ 102 then some (n - 87)
  else none

/-- Body of a JSON string after the opening quote: processes escapes, rejects
raw control characters, and stops at the closing quote.  Fuel bounds the
recursion; `jsonParse` always supplies enough. -/
def parseStringBody : Nat → List Char → Option (List Char × List Char)
  | 0, _ => none
  | _, [] => none
  | Nat.succ fuel, c :: rest =>
    if c == '\"' then some ([], rest)
    else if c == '\\' then
      match rest with
      | [] => none
      | e :: r2 =>
        let esc : Option (Char × List Char) :=
          if e == '\"' then some ('\"', r2)
          else if e == '\\' then some ('\\', r2)
          else if e == '/' then some ('/', r2)
          else if e == 'b' then some (Char.ofNat 8, r2)
          else if e == 'f' then some (Char.ofNat 12, r2)
          else if e == 'n' then some ('\n', r2)
          else if e == 'r' then some ('\r', r2)
          else if e == 't' then some ('\t', r2)
          else if e == 'u' then
            match r2 with
            | h1 :: h2 :: h3 :: h4 :: r3 =>
              match hexVal h1, hexVal h2, hexVal h3, hexVal h4 with
              | some a, some b, some c3, some d =>
                some (Char.ofNat (((a * 16 + b) * 16 + c3) * 16 + d), r3)
              | _, _, _, _ => none
            | _ => none
          else none
        match esc with
        | none => none
        | some (ch, r3) =>
          match parseStringBody fuel r3 with
          | some (cs, rest2) => some (ch :: cs, rest2)
          | none => none
    else if c.toNat < 32 then none
    else
      match parseStringBody fuel rest with
      | some (cs, rest2) => some (c :: cs, rest2)
      | none => none

mutual
/-- One JSON value: leading whitespace, then an object, array, string,
literal, or number.  Fuel bounds the nesting; `jsonParse` supplies enough. -/
def parseJsonValue : Nat → List Char → Option (JsVal × List Char)
  | 0, _ => none
  | Nat.succ fuel, s =>
    match skipJsonWs s with
    | [] => none
    | c :: rest =>
      if c.toNat == 123 then
        match skipJsonWs rest with
        | [] => none
        | c2 :: r2 =>
          if c2.toNat == 125 then some (.obj [], r2)
          else parseJsonMembers fuel (c2 :: r2) []
      else if c == '[' then
        match skipJsonWs rest with
        | [] => none
        | c2 :: r2 =>
          if c2 == ']' then some (.arr [], r2)
          else parseJsonElements fuel (c2 :: r2) []
      else if c == '\"' then
        match parseStringBody (rest.length + 1) rest with
        | some (cs, r2) => some (.str (String.mk cs), r2)
        | none => none
      else if c == 't' then
        match rest with
        | 'r' :: 'u' :: 'e' :: r2 => some (.bool true, r2)
        | _ => none
      else if c == 'f' then
        match rest with
        | 'a' :: 'l' :: 's' :: 'e' :: r2 => some (.bool false, r2)
        | _ => none
      else if c == 'n' then
        match rest with
        | 'u' :: 'l' :: 'l' :: r2 => some (.null, r2)
        | _ => none
      else if c == '-' || isJsonDigit c then parseJsonNumber (c :: rest)
      else none

/-- Comma-separated array elements up to the closing bracket. -/
def parseJsonElements : Nat → List Char → List JsVal → Option (JsVal × List Char)
  | 0, _, _ => none
  | Nat.succ fuel, s, acc =>
    match parseJsonValue fuel s with
    | none => none
    | some (v, r1) =>
      match skipJsonWs r1 with
      | [] => none
      | c :: r2 =>
        if c == ',' then parseJsonElements fuel r2 (acc ++ [v])
        else if c == ']' then some (.arr (acc ++ [v]), r2)
        else none

/-- Comma-separated object members up to the closing brace. -/
def parseJsonMembers : Nat → List Char → List (String × JsVal) → Option (JsVal × List Char)
  | 0, _, _ => none
  | Nat.succ fuel, s, acc =>
    match skipJsonWs s with
    | [] => none
    | c1 :: r1 =>
      if c1 == '\"' then
        match parseStringBody (r1.length + 1) r1 with
        | none => none
        | some (kcs, r2) =>
          match skipJsonWs r2 with
          | [] => none
          | c3 :: r3 =>
            if c3 == ':' then
              match parseJsonValue fuel r3 with
              | none => none
              | some (v, r4) =>
                match skipJsonWs r4 with
                | [] => none
                | c5 :: r5 =>
                  if c5 == ',' then
                    parseJsonMembers fuel r5 (acc ++ [(String.mk kcs, v)])
                  else if c5.toNat == 125 then
                    some (.obj (acc ++ [(String.mk kcs, v)]), r5)
                  else none
            else none
      else none
end

/-- `JSON.parse` over the embedding: parse one value and require only
whitespace to remain.  The fuel exceeds any possible number of nested parse
steps for the given input length. -/
def jsonParse (s : String) : Option JsVal :=
  let cs := s.toList
  match parseJsonValue (2 * cs.length + 4) cs with
  | some (v, rest) => if (skipJsonWs rest).isEmpty then some v else none
  | none => none

/- ---------------------------------------------------------------------- -/
/- The transport executor: the handlers _request installs.                 -/
/- ---------------------------------------------------------------------- -/

/-- The envelope `_request` resolves: the sole return contract. -/
structure ResponseEnvelope where
  success : Bool
  message : String
  code : Nat
  data : JsVal

/-- The ways a call can reject. -/
inductive RequestError where
  | parseError (body : String)
  | transportError (message : String)
  | timeoutError (message : String)

/-- Terminal promise outcome of one call. -/
inductive Outcome where
  | resolved (env : ResponseEnvelope)
  | rejected (err : RequestError)

/-- What one network event makes `_request` do: emitted warnings, whether the
in-flight request was aborted, and how the promise settles. -/
structure StepResult where
  warnings : List Warning
  aborted : Bool
  outcome : Outcome

/-- Events the underlying transport can deliver to `_request`'s handlers. -/
inductive NetEvent where
  | response (statusCode : Nat) (statusMessage : String) (chunks : List String)
  | transportFailure (message : String)
  | timedOut

/-- Warning emitted when the body is an HTML error page. -/
def htmlWarning : Warning :=
  { title := "Invalid request"
    detail := "There was a problem with your request. The parameter(s) you gave are missing or incorrect." }

/-- Warning emitted when the body is the throttling plaintext. -/
def throttledWarning : Warning :=
  { title := "Throttled request"
    detail := "There was a problem with request limit." }

/-- The timeout rejection message, naming the configured timeout. -/
def timeoutMessage : String :=
  "CoinGecko API request timed out. Current timeout is: " ++ toString TIMEOUT ++ " milliseconds"

/-- The handlers `_request` installs, as a function of the delivered event.
On response end: concatenate the buffered chunks, emit at most one diagnostic
for the two known non-JSON bodies, then strictly JSON-parse.  In the source a
parse failure calls `reject` inside the catch block and the later `resolve`
call is a no-op because the promise has already settled, so the call rejects;
on parse success it resolves the envelope with
`success = !(statusCode < 200 || statusCode >= 300)`.  A transport error
rejects with that error; a timeout aborts the in-flight request and rejects
with the timeout message. -/
def handleEvent : NetEvent → StepResult
  | .response code msg chunks =>
    let body := String.join chunks
    let ws :=
      if strStartsWith body "<!DOCTYPE html>" then [htmlWarning]
      else if strStartsWith body "Throttled" then [throttledWarning]
      else []
    match jsonParse body with
    | some v =>
      { warnings := ws, aborted := false
        outcome := .resolved
          { success := !(decide (code < 200) || decide (300 ≤ code))
            message := msg, code := code, data := v } }
    | none =>
      { warnings := ws, aborted := false, outcome := .rejected (.parseError body) }
  | .transportFailure m =>
    { warnings := [], aborted := false, outcome := .rejected (.transportError m) }
  | .timedOut =>
    { warnings := [], aborted := true, outcome := .rejected (.timeoutError timeoutMessage) }

/- ---------------------------------------------------------------------- -/
/- Endpoint catalog entries the claims exercise.                           -/
/- ---------------------------------------------------------------------- -/

/-- JS default-argument application: `undefined` (and an absent argument)
takes the declared default. -/
def jsDefault (v d : JsVal) : JsVal :=
  match v with
  | .undefined => d
  | p => p

/-- Warning text for a non-object `params` argument. -/
def paramsObjectWarning : Warning :=
  { title := "Invalid parameter", detail := "params must be of type: Object" }

/-- Warning text for an invalid `coinId`. -/
def coinIdWarning : Warning :=
  { title := "Invalid parameter"
    detail := "coinId must be of type: String and greater than 0 characters." }

/-- Warning text for invalid `params.ids` in simple.price. -/
def idsWarning : Warning :=
  { title := "Invalid parameter"
    detail := "params.ids must be of type: String or Array and greater than 0 characters." }

/-- `ping()`: fixed path, and `_request` is called without a params argument,
so `params` is `undefined` inside `_buildRequestOptions`. -/
def ping (c : Client) : RequestOptions :=
  _buildRequestOptions c "/ping" JsVal.undefined

/-- One defaulting statement of the normalizers: if the named parameter is
not a non-empty string, assign the string "usd" to it. -/
def defaultUsdStep (fields : List (String × JsVal)) (name : String) : List (String × JsVal) :=
  if !(isString (getF fields name)) || isStringEmpty (getF fields name)
  then setField fields name (.str "usd")
  else fields

/-- One coercion statement of the normalizers: if the named parameter is an
array, replace it by the comma-join of its elements. -/
def joinArrayStep (fields : List (String × JsVal)) (name : String) : List (String × JsVal) :=
  match getF fields name with
  | .arr l => setField fields name (.str (jsArrJoinStr l))
  | _ => fields

/-- The parameter mutations of `coins.markets`, in source order: default
`vs_currency` to "usd" when it is not a non-empty string, then comma-join an
array-valued `ids`. -/
def coinsMarketsNormalize (fields : List (String × JsVal)) : List (String × JsVal) :=
  joinArrayStep (defaultUsdStep fields "vs_currency") "ids"

/-- `coins.markets(params = {})`.  For a non-object `params` the source emits
a warning and then, running under `use strict`, throws a TypeError at the
first property assignment before any request is made (`none`); object params
are normalized and the request is issued. -/
def coins_markets (c : Client) (params : JsVal) : List Warning × Option RequestOptions :=
  match jsDefault params (.obj []) with
  | .obj fields =>
    ([], some (_buildRequestOptions c "/coins/markets" (.obj (coinsMarketsNormalize fields))))
  | _ => ([paramsObjectWarning], none)

/-- `coins.fetch(coinId, params = {})`: warn when `coinId` is not a non-empty
string, then build the path by template interpolation and issue the request
regardless. -/
def coins_fetch (c : Client) (coinId : JsVal) (params : JsVal) : List Warning × RequestOptions :=
  let ws := if isString coinId && !(isStringEmpty coinId) then [] else [coinIdWarning]
  (ws, _buildRequestOptions c ("/coins/" ++ jsStringOf coinId) (jsDefault params (.obj [])))

/-- The parameter mutations of `simple.price`, in source order: comma-join an
array-valued `vs_currencies`, then default it to "usd" when it is not a
non-empty string, then comma-join an array-valued `ids`. -/
def simplePriceNormalize (fields : List (String × JsVal)) : List (String × JsVal) :=
  joinArrayStep (defaultUsdStep (joinArrayStep fields "vs_currencies") "vs_currencies") "ids"

/-- `simple.price(params = {})`: normalize, warn when the (joined) `ids` is
not a non-empty string, and issue the request; as in `coins.markets`, a
non-object `params` warns and then throws before any request. -/
def simple_price (c : Client) (params : JsVal) : List Warning × Option RequestOptions :=
  match jsDefault params (.obj []) with
  | .obj fields =>
    let f := simplePriceNormalize fields
    let ws := if isString (getF f "ids") && !(isStringEmpty (getF f "ids")) then [] else [idsWarning]
    (ws, some (_buildRequestOptions c "/simple/price" (.obj f)))
  | _ => ([paramsObjectWarning], none)

/- ---------------------------------------------------------------------- -/
/- Small specification-side helpers used in theorem statements.            -/
/- ---------------------------------------------------------------------- -/

/-- Substring occurrence test over character lists. -/
def strContainsList (pat : List Char) : List Char → Bool
  | [] => pat.isEmpty
  | c :: rest => List.isPrefixOf pat (c :: rest) || strContainsList pat rest

/-- Substring occurrence test on strings. -/
def strContains (s pat : String) : Bool :=
  strContainsList pat.toList s.toList

/-- The comma-join of a list of strings in original order, as the spec
describes list coercion. -/
def commaJoin : List String → String
  | [] => ""
  | [x] => x
  | x :: y :: rest => x ++ "," ++ commaJoin (y :: rest)

/- ---------------------------------------------------------------------- -/
/- Supporting lemmas about the embedded operations.                        -/
/- ---------------------------------------------------------------------- -/

theorem getField_setField_self (fs : List (String × JsVal)) (k : String) (v : JsVal) :
    getField (setField fs k v) k = some v := by
  induction fs with
  | nil => simp [setField, getField]
  | cons kv rest ih =>
    obtain ⟨k1, v1⟩ := kv
    by_cases h : k1 = k <;> simp [setField, getField, h, ih]

theorem getField_setField_ne (fs : List (String × JsVal)) (k k2 : String) (v : JsVal)
    (h : k2 ≠ k) : getField (setField fs k v) k2 = getField fs k2 := by
  induction fs with
  | nil =>
    simp [setField, getField]
    exact fun hh => h hh.symm
  | cons kv rest ih =>
    obtain ⟨k1, v1⟩ := kv
    by_cases h1 : k1 = k
    · subst h1
      have hne : ¬ k1 = k2 := fun hh => h hh.symm
      simp [setField, getField, hne]
    · simp [setField, getField, h1, ih]

theorem pair_mem_qsRawPairs_setField (fs : List (String × JsVal)) (k s : String) :
    (k, s) ∈ qsRawPairs (setField fs k (JsVal.str s)) := by
  induction fs with
  | nil => simp [setField, qsRawPairs, stringifyPrimitive]
  | cons kv rest ih =>
    obtain ⟨k1, v1⟩ := kv
    by_cases h : k1 = k
    · subst h; simp [setField, qsRawPairs, stringifyPrimitive]
    · cases v1 <;> simp [setField, h, qsRawPairs, ih]

theorem qsRawPairs_key_mem (fs : List (String × JsVal)) :
    ∀ pr ∈ qsRawPairs fs, ∃ kv ∈ fs, pr.1 = kv.1 := by
  induction fs with
  | nil => intro pr hpr; simp [qsRawPairs] at hpr
  | cons kv rest ih =>
    intro pr hpr
    obtain ⟨k1, v1⟩ := kv
    have tail : pr ∈ qsRawPairs rest → ∃ kv ∈ (k1, v1) :: rest, pr.1 = kv.1 := by
      intro hr
      rcases ih pr hr with ⟨kv2, hm, hk⟩
      exact ⟨kv2, List.mem_cons_of_mem _ hm, hk⟩
    have head : pr.1 = k1 → ∃ kv ∈ (k1, v1) :: rest, pr.1 = kv.1 :=
      fun hk => ⟨(k1, v1), List.mem_cons_self _ _, hk⟩
    cases v1 <;> simp only [qsRawPairs, List.mem_cons, List.mem_append, List.mem_map] at hpr
    case arr elems =>
      rcases hpr with ⟨el, hel, heq⟩ | hr
      · exact head (by rw [← heq])
      · exact tail hr
    all_goals
      rcases hpr with heq | hr
      · exact head (by rw [heq])
      · exact tail hr

theorem qsRawPairs_no_key (fs : List (String × JsVal)) (key : String)
    (h : ∀ kv ∈ fs, kv.1 ≠ key) : ∀ pr ∈ qsRawPairs fs, pr.1 ≠ key := by
  intro pr hpr
  rcases qsRawPairs_key_mem fs pr hpr with ⟨kv2, hm, hk⟩
  rw [hk]
  exact h kv2 hm

theorem jsArrJoinStr_map_str (l : List String) :
    jsArrJoinStr (l.map JsVal.str) = commaJoin l := by
  induction l with
  | nil => rfl
  | cons x rest ih =>
    cases rest with
    | nil => rfl
    | cons y r2 =>
      simp [jsArrJoinStr, jsElemStr, commaJoin] at ih ⊢
      rw [← ih]

/- ---------------------------------------------------------------------- -/
/- Claim theorems.                                                         -/
/- ---------------------------------------------------------------------- -/

/-- C1: every response whose buffered body parses as JSON resolves an
envelope — regardless of the HTTP status code — and the envelope's success
field is true exactly when the status code lies in [200, 300); a status
outside that range is not raised as an error but surfaces as success false
in a normally resolved envelope. -/
theorem envelope_success_iff_status_2xx (code : Nat) (msg : String) (chunks : List String)
    (v : JsVal) (h : jsonParse (String.join chunks) = some v) :
    (handleEvent (.response code msg chunks)).outcome =
      Outcome.resolved
        { success := !(decide (code < 200) || decide (300 ≤ code))
          message := msg, code := code, data := v }
    ∧ ((!(decide (code < 200) || decide (300 ≤ code))) = true ↔ 200 ≤ code ∧ code < 300) := by
  constructor
  · simp [handleEvent, h]
  · simp

/-- Witness for C1: a 404 response with a parseable body resolves normally
with success false. -/
theorem envelope_success_iff_status_2xx_witness :
    (handleEvent (.response 404 "Not Found" ["[]"])).outcome =
      Outcome.resolved
        { success := false, message := "Not Found", code := 404, data := JsVal.arr [] }
    ∧ (false = true ↔ 200 ≤ 404 ∧ 404 < 300) :=
  envelope_success_iff_status_2xx 404 "Not Found" ["[]"] (JsVal.arr []) (by rfl)

/-- C4: after a completed HTTP exchange, the call rejects exactly when the
buffered body text is not valid JSON, and then the rejection carries the
parse error for that body: this is the only failure path after a completed
exchange. -/
theorem response_rejected_iff_body_unparsable (code : Nat) (msg : String) (chunks : List String)
    (err : RequestError) :
    (handleEvent (.response code msg chunks)).outcome = Outcome.rejected err ↔
      (err = RequestError.parseError (String.join chunks)
        ∧ jsonParse (String.join chunks) = none) := by
  cases hp : jsonParse (String.join chunks) <;> simp [handleEvent, hp]
  exact eq_comm

/-- Witness for C4: the plaintext body "Throttled" emits the throttling
warning and the call then rejects with the JSON parse error. -/
theorem response_rejected_iff_body_unparsable_witness :
    (handleEvent (.response 200 "OK" ["Throttled"])).outcome =
      Outcome.rejected (RequestError.parseError "Throttled")
    ∧ (handleEvent (.response 200 "OK" ["Throttled"])).warnings = [throttledWarning] :=
  ⟨(response_rejected_iff_body_unparsable 200 "OK" ["Throttled"]
      (RequestError.parseError "Throttled")).mpr ⟨rfl, rfl⟩, by decide⟩

/-- C8: on the timeout event the in-flight request is aborted and the call
rejects with an error whose message includes the configured timeout value in
milliseconds, which is 30000. -/
theorem timeout_event_aborts_and_reports_value :
    (handleEvent NetEvent.timedOut).aborted = true
    ∧ (handleEvent NetEvent.timedOut).outcome =
        Outcome.rejected (RequestError.timeoutError timeoutMessage)
    ∧ strContains timeoutMessage (toString TIMEOUT) = true
    ∧ TIMEOUT = 30000
    ∧ timeoutMessage = "CoinGecko API request timed out. Current timeout is: 30000 milliseconds" :=
  ⟨rfl, rfl, by decide, rfl, rfl⟩

/-- C6: simple.price called with ids ["bitcoin"] and no vs_currencies sends
the query string ids=bitcoin&vs_currencies=usd — the currency parameter
defaults to "usd" when absent. -/
theorem simple_price_defaults_vs_currencies_usd :
    (simple_price client0 (JsVal.obj [("ids", JsVal.arr [JsVal.str "bitcoin"])])).2 =
      some
        { path := "/api/v3/simple/price?ids=bitcoin&vs_currencies=usd"
          method := "GET", host := HOST, port := 443, timeout := TIMEOUT }
    ∧ strContains "/api/v3/simple/price?ids=bitcoin&vs_currencies=usd"
        "ids=bitcoin&vs_currencies=usd" = true :=
  ⟨rfl, by decide⟩

/-- C2 counterexample: on a client constructed with the key "k", ping still
resolves the pro host, but — contrary to the claim — its request carries no
query string at all, hence no x_cg_pro_api_key parameter, because the key is
only inserted into an object parameter mapping and ping passes none. -/
theorem keyed_ping_query_lacks_api_key :
    _shouldCallPro (construct (some (JsVal.str "k"))) = true
    ∧ (ping (construct (some (JsVal.str "k")))).path = "/api/v3/ping"
    ∧ strContains (ping (construct (some (JsVal.str "k")))).path "x_cg_pro_api_key" = false :=
  ⟨rfl, rfl, by decide⟩

/-- C2 as amended: with a configured string key, every call resolves the paid
hostname; when the endpoint passes an object parameter mapping the key is
inserted under x_cg_pro_api_key and serialized into the query string; a call
passing no parameter mapping produces a bare path with no query at all. -/
theorem keyed_call_pro_host_and_key_pair (c : Client) (k : String) (p : String)
    (fields : List (String × JsVal)) (hk : c.apiKey = JsVal.str k) :
    _resolveHost c = PRO_HOST
    ∧ (_buildRequestOptions c p (JsVal.obj fields)).host = PRO_HOST
    ∧ _insertApiKeyIntoParams c (JsVal.obj fields) =
        JsVal.obj (setField fields "x_cg_pro_api_key" (JsVal.str k))
    ∧ ("x_cg_pro_api_key", k) ∈ qsRawPairs (setField fields "x_cg_pro_api_key" (JsVal.str k))
    ∧ (_buildRequestOptions c p (JsVal.obj fields)).path =
        "/api/v" ++ API_VERSION ++ p ++ "?"
          ++ qsStringify (setField fields "x_cg_pro_api_key" (JsVal.str k))
    ∧ (_buildRequestOptions c p JsVal.undefined).path = "/api/v" ++ API_VERSION ++ p := by
  have hpro : _shouldCallPro c = true := by simp [_shouldCallPro, hk]
  refine ⟨by simp [_resolveHost, hpro], ?_, ?_, pair_mem_qsRawPairs_setField fields _ k, ?_, rfl⟩
  · simp [_buildRequestOptions, _insertApiKeyIntoParams, hpro, _resolveHost]
  · simp [_insertApiKeyIntoParams, hpro, hk]
  · simp [_buildRequestOptions, _insertApiKeyIntoParams, hpro, hk]

/-- Witness for the amended C2 at a concrete keyed client and mapping. -/
theorem keyed_call_pro_host_and_key_pair_witness :
    (construct (some (JsVal.str "k"))).apiKey = JsVal.str "k"
    ∧ _resolveHost (construct (some (JsVal.str "k"))) = PRO_HOST
    ∧ ("x_cg_pro_api_key", "k") ∈
        qsRawPairs (setField [("a", JsVal.str "1")] "x_cg_pro_api_key" (JsVal.str "k"))
    ∧ (_buildRequestOptions (construct (some (JsVal.str "k"))) "/coins"
        (JsVal.obj [("a", JsVal.str "1")])).path = "/api/v3/coins?a=1&x_cg_pro_api_key=k" := by
  have h := keyed_call_pro_host_and_key_pair (construct (some (JsVal.str "k"))) "k" "/coins"
    [("a", JsVal.str "1")] rfl
  exact ⟨rfl, h.1, h.2.2.2.1, by decide⟩

/-- C3 counterexample: an empty object parameter mapping does NOT omit the
question mark — stringifying an empty object gives the empty string, which
is not loosely equal to undefined, so the built path ends in a bare "?". -/
theorem empty_params_path_has_question_mark :
    (_buildRequestOptions client0 "/coins" (JsVal.obj [])).path = "/api/v3/coins?"
    ∧ strContains (_buildRequestOptions client0 "/coins" (JsVal.obj [])).path "?" = true :=
  ⟨rfl, by decide⟩

/-- C3 as amended: a call whose parameter mapping is absent (any non-object
params value) carries no question mark, and ping() with no parameters builds
exactly /api/v3/ping; an empty object mapping, however, yields a trailing
question mark. -/
theorem absent_params_path_has_no_query (c : Client) (p : String) (params : JsVal)
    (h : isObject params = false) :
    (_buildRequestOptions c p params).path = "/api/v" ++ API_VERSION ++ p
    ∧ (ping c).path = "/api/v3/ping"
    ∧ strContains (ping c).path "?" = false := by
  refine ⟨?_, rfl, show strContains "/api/v3/ping" "?" = false by decide⟩
  cases params
  case obj fields => simp [isObject] at h
  all_goals rfl

/-- Witness for the amended C3 at the default client with undefined params. -/
theorem absent_params_path_has_no_query_witness :
    isObject JsVal.undefined = false
    ∧ (_buildRequestOptions client0 "/ping" JsVal.undefined).path = "/api/v" ++ API_VERSION ++ "/ping"
    ∧ (ping client0).path = "/api/v3/ping"
    ∧ strContains (ping client0).path "?" = false :=
  ⟨rfl, (absent_params_path_has_no_query client0 "/ping" JsVal.undefined rfl).1,
    (absent_params_path_has_no_query client0 "/ping" JsVal.undefined rfl).2.1,
    (absent_params_path_has_no_query client0 "/ping" JsVal.undefined rfl).2.2⟩

/-- C7: with no configured key (stored key null), the host resolves to the
public hostname, key insertion is the identity, and — provided the caller
did not themselves use the reserved name — no serialized query pair is named
x_cg_pro_api_key. -/
theorem null_key_public_host_no_key_param (c : Client) (p : String)
    (fields : List (String × JsVal)) (hk : c.apiKey = JsVal.null)
    (hf : ∀ kv ∈ fields, kv.1 ≠ "x_cg_pro_api_key") :
    _resolveHost c = HOST
    ∧ (_buildRequestOptions c p (JsVal.obj fields)).host = HOST
    ∧ _insertApiKeyIntoParams c (JsVal.obj fields) = JsVal.obj fields
    ∧ (∀ pr ∈ qsRawPairs fields, pr.1 ≠ "x_cg_pro_api_key")
    ∧ (_buildRequestOptions c p (JsVal.obj fields)).path =
        "/api/v" ++ API_VERSION ++ p ++ "?" ++ qsStringify fields := by
  have hpro : _shouldCallPro c = false := by simp [_shouldCallPro, hk]
  exact ⟨by simp [_resolveHost, hpro],
    by simp [_buildRequestOptions, _insertApiKeyIntoParams, hpro, _resolveHost],
    by simp [_insertApiKeyIntoParams, hpro],
    qsRawPairs_no_key fields _ hf,
    by simp [_buildRequestOptions, _insertApiKeyIntoParams, hpro]⟩

/-- Witness for C7 at the default client and a one-field mapping. -/
theorem null_key_public_host_no_key_param_witness :
    client0.apiKey = JsVal.null
    ∧ _resolveHost client0 = HOST
    ∧ (∀ pr ∈ qsRawPairs [("foo", JsVal.str "bar")], pr.1 ≠ "x_cg_pro_api_key")
    ∧ (_buildRequestOptions client0 "/coins" (JsVal.obj [("foo", JsVal.str "bar")])).path =
        "/api/v3/coins?foo=bar" := by
  have h := null_key_public_host_no_key_param client0 "/coins" [("foo", JsVal.str "bar")] rfl
    (by decide)
  exact ⟨rfl, h.1, h.2.2.2.1, by decide⟩

theorem joinArrayStep_arr (fields : List (String × JsVal)) (name : String) (l2 : List JsVal)
    (h : getField fields name = some (JsVal.arr l2)) :
    joinArrayStep fields name = setField fields name (JsVal.str (jsArrJoinStr l2)) := by
  unfold joinArrayStep
  simp [getF, h]

theorem joinArrayStep_getField_other (fields : List (String × JsVal)) (name k : String)
    (h : k ≠ name) :
    getField (joinArrayStep fields name) k = getField fields k := by
  unfold joinArrayStep
  cases hx : getF fields name <;> simp [getField_setField_ne _ _ _ _ h]

theorem defaultUsdStep_getField_other (fields : List (String × JsVal)) (name k : String)
    (h : k ≠ name) :
    getField (defaultUsdStep fields name) k = getField fields k := by
  unfold defaultUsdStep
  split
  · rw [getField_setField_ne _ _ _ _ h]
  · rfl

/-- C5 counterexample: in simple.price an array-valued vs_currencies is
joined BEFORE the empty check, so the list [""] joins to the empty string and
is then replaced by the default "usd" — the transmitted value is not the
comma-join of the supplied list. -/
theorem vs_currencies_empty_join_defaults_usd :
    getField (simplePriceNormalize [("vs_currencies", JsVal.arr [JsVal.str ""])]) "vs_currencies"
      = some (JsVal.str "usd")
    ∧ commaJoin [""] = ""
    ∧ "usd" ≠ "" :=
  ⟨rfl, rfl, by decide⟩

/-- C5 as amended: a list-valued ids in coins.markets always normalizes to
the comma-join of its elements in original order; a list-valued vs_currencies
in simple.price does too, provided the joined string is not empty after
trimming (otherwise the "usd" default overwrites it). -/
theorem list_params_comma_joined (fields : List (String × JsVal)) (l : List String) :
    (getField fields "ids" = some (JsVal.arr (l.map JsVal.str)) →
      getField (coinsMarketsNormalize fields) "ids" = some (JsVal.str (commaJoin l)))
    ∧ (getField fields "vs_currencies" = some (JsVal.arr (l.map JsVal.str)) →
        strTrim (commaJoin l) ≠ "" →
        getField (simplePriceNormalize fields) "vs_currencies"
          = some (JsVal.str (commaJoin l))) := by
  constructor
  · intro h
    unfold coinsMarketsNormalize
    rw [joinArrayStep_arr _ _ _
        (by rw [defaultUsdStep_getField_other _ _ _ (by decide)]; exact h),
      getField_setField_self, jsArrJoinStr_map_str]
  · intro h hne
    unfold simplePriceNormalize
    rw [joinArrayStep_arr fields "vs_currencies" _ h]
    have hval : getF (setField fields "vs_currencies"
        (JsVal.str (jsArrJoinStr (l.map JsVal.str)))) "vs_currencies"
        = JsVal.str (jsArrJoinStr (l.map JsVal.str)) := by
      simp [getF, getField_setField_self]
    have hstep : defaultUsdStep (setField fields "vs_currencies"
        (JsVal.str (jsArrJoinStr (l.map JsVal.str)))) "vs_currencies"
        = setField fields "vs_currencies" (JsVal.str (jsArrJoinStr (l.map JsVal.str))) := by
      unfold defaultUsdStep
      rw [hval]
      have hemp : isStringEmpty (JsVal.str (jsArrJoinStr (l.map JsVal.str))) = false := by
        rw [jsArrJoinStr_map_str]
        simp [isStringEmpty, hne]
      simp [isString, hemp]
    rw [hstep, joinArrayStep_getField_other _ _ _ (by decide),
      getField_setField_self, jsArrJoinStr_map_str]

/-- Witness for the amended C5 on the list ["bitcoin", "ethereum"] in both
named endpoints. -/
theorem list_params_comma_joined_witness :
    getField (coinsMarketsNormalize
        [("ids", JsVal.arr [JsVal.str "bitcoin", JsVal.str "ethereum"])]) "ids"
      = some (JsVal.str "bitcoin,ethereum")
    ∧ getField (simplePriceNormalize
        [("vs_currencies", JsVal.arr [JsVal.str "bitcoin", JsVal.str "ethereum"])]) "vs_currencies"
      = some (JsVal.str "bitcoin,ethereum") := by
  have h1 := (list_params_comma_joined
    [("ids", JsVal.arr [JsVal.str "bitcoin", JsVal.str "ethereum"])] ["bitcoin", "ethereum"]).1 rfl
  have h2 := (list_params_comma_joined
    [("vs_currencies", JsVal.arr [JsVal.str "bitcoin", JsVal.str "ethereum"])]
    ["bitcoin", "ethereum"]).2 rfl (by decide)
  exact ⟨h1, h2⟩

/-- C9: calling coins.fetch with a missing, non-string or empty coinId emits
exactly the validation warning and still issues the request, with the invalid
segment interpolated into the path; no validation condition aborts the call
before network I/O. -/
theorem invalid_coin_id_warns_but_requests (c : Client) (coinId params : JsVal)
    (h : isString coinId = false ∨ isStringEmpty coinId = true) :
    (coins_fetch c coinId params).1 = [coinIdWarning]
    ∧ (coins_fetch c coinId params).2 =
        _buildRequestOptions c ("/coins/" ++ jsStringOf coinId) (jsDefault params (JsVal.obj [])) := by
  have hcond : (isString coinId && !(isStringEmpty coinId)) = false := by
    rcases h with h | h <;> simp [h]
  simp [coins_fetch, hcond]

/-- Witness for C9: fetching with coinId undefined warns and still requests
the path /api/v3/coins/undefined? (the "undefined" segment comes from JS
template-literal interpolation, and the trailing question mark from the
defaulted empty params object). -/
theorem invalid_coin_id_warns_but_requests_witness :
    (isString JsVal.undefined = false ∨ isStringEmpty JsVal.undefined = true)
    ∧ (coins_fetch client0 JsVal.undefined (JsVal.obj [])).1 = [coinIdWarning]
    ∧ (coins_fetch client0 JsVal.undefined
        (JsVal.obj [])).2.path = "/api/v3/coins/undefined?" := by
  have h := invalid_coin_id_warns_but_requests client0 JsVal.undefined (JsVal.obj []) (Or.inl rfl)
  exact ⟨Or.inl rfl, h.1, by decide⟩

/-- C10 counterexample: constructing with an explicitly-passed undefined key
triggers the JS default parameter, so the stored key is null, the client is
NOT treated as configured, and calls resolve the public hostname, contrary
to the claim. -/
theorem undefined_key_not_configured :
    _shouldCallPro (construct (some JsVal.undefined)) = false
    ∧ _resolveHost (construct (some JsVal.undefined)) = HOST
    ∧ HOST ≠ PRO_HOST :=
  ⟨rfl, rfl, by decide⟩

/-- C10 as amended: the key counts as configured exactly when the stored key
is not null; an explicitly-passed undefined key is replaced by the null
default, so such a client resolves the public hostname, while an
empty-string key does count as configured — paid hostname, and the empty
string is injected under x_cg_pro_api_key. -/
theorem key_configured_iff_stored_not_null :
    construct (some JsVal.undefined) = construct none
    ∧ _shouldCallPro (construct (some JsVal.undefined)) = false
    ∧ _resolveHost (construct (some JsVal.undefined)) = HOST
    ∧ _shouldCallPro (construct (some (JsVal.str ""))) = true
    ∧ _resolveHost (construct (some (JsVal.str ""))) = PRO_HOST
    ∧ (∀ fields, _insertApiKeyIntoParams (construct (some (JsVal.str ""))) (JsVal.obj fields)
        = JsVal.obj (setField fields "x_cg_pro_api_key" (JsVal.str "")))
    ∧ (∀ fields, getField (setField fields "x_cg_pro_api_key" (JsVal.str "")) "x_cg_pro_api_key"
        = some (JsVal.str "")) :=
  ⟨rfl, rfl, rfl, rfl, rfl, fun _ => rfl, fun fields => getField_setField_self fields _ _⟩

/-- Witness for the amended C10 at the empty mapping. -/
theorem key_configured_iff_stored_not_null_witness :
    getField (setField [] "x_cg_pro_api_key" (JsVal.str "")) "x_cg_pro_api_key"
      = some (JsVal.str "") :=
  key_configured_iff_stored_not_null.2.2.2.2.2.2 []
